import Mathlib

/-
Verification development for the stocknews-mcp repository.

The repository's core is the technical-indicator computation and alignment
pipeline: wrappers around a numeric indicator library
(src/functions/technicalIndicator.ts), date/series alignment, a
support/resistance detector and a trend analyzer
(src/tools/tools.ts, tool registrations get-technical-indicators and
get-technical-analysis).

Numbers are embedded as rationals (ℚ); JavaScript array indexing that can
yield `undefined` is embedded as `Option`.

The numeric library `technicalindicators` itself is not part of the
repository source; its primitives (SMA.calculate, EMA.calculate,
MACD.calculate) are modelled from the specification (spec.md §4.1) and are
marked `Modelled from the spec:` below.  Everything else is translated from
the repository's own source files.
-/

namespace StockNews

/-- Modelled from the spec: `technicalindicators.SMA.calculate`
(missing from the repository source).  §4.1: "arithmetic mean of each
trailing window of size `period`; output length = `len(closes) - period + 1`";
for `period > len(closes)` the result is empty ("insufficient data for
requested window, handled by returning an empty/partial result", §7).
One window is emitted per suffix of the data that still holds at least
`period` values. -/
def SMAcalc : List ℚ → ℕ → List ℚ
  | [], _ => []
  | x :: xs, period =>
    if period ≤ xs.length + 1 then
      ((x :: xs).take period).sum / (period : ℚ) :: SMAcalc xs period
    else []

/-- One step of exponential smoothing with factor `k`. -/
def emaStep (k prev x : ℚ) : ℚ :=
  (x - prev) * k + prev

/-- The tail of an EMA run: successive exponential-smoothing values with
factor `k` starting from previous value `prev`. -/
def emaFrom (k prev : ℚ) : List ℚ → List ℚ
  | [] => []
  | x :: xs => emaStep k prev x :: emaFrom (k) (emaStep k prev x) xs

/-- Modelled from the spec: `technicalindicators.EMA.calculate`
(missing from the repository source).  §4.1: "exponential smoothing with
standard smoothing factor `2/(period+1)`, seeded by the first SMA value;
same length as SMA" (empty when there are fewer than `period` inputs). -/
def EMAcalc (data : List ℚ) (period : ℕ) : List ℚ :=
  if period = 0 ∨ data.length < period then []
  else
    (data.take period).sum / (period : ℚ) ::
      emaFrom (2 / ((period : ℚ) + 1)) ((data.take period).sum / (period : ℚ))
        (data.drop period)

/-- The MACD line: `EMA(closes, fast) - EMA(closes, slow)`, defined from the
point where the slow EMA is defined (spec §4.1).  The fast EMA is `slow - fast`
entries longer, so those leading entries are dropped before subtracting. -/
def macdLine (data : List ℚ) (fast slow : ℕ) : List ℚ :=
  List.zipWith (· - ·) ((EMAcalc data fast).drop (slow - fast)) (EMAcalc data slow)

/-- The MACD signal line: `EMA(MACD, signal)` (spec §4.1). -/
def signalLine (data : List ℚ) (fast slow signal : ℕ) : List ℚ :=
  EMAcalc (macdLine data fast slow) signal

/-- The MACD histogram: `MACD - Signal` at matching time steps (spec §4.1).
The MACD line is `signal - 1` entries longer than the signal line, so those
leading entries are dropped before subtracting. -/
def histLine (data : List ℚ) (fast slow signal : ℕ) : List ℚ :=
  List.zipWith (· - ·) ((macdLine data fast slow).drop (signal - 1))
    (signalLine data fast slow signal)

/-- One element of the raw output of `technicalindicators.MACD.calculate`:
a record whose fields are individually absent (`undefined`) during warm-up. -/
structure MACDOutput where
  MACD : Option ℚ
  signal : Option ℚ
  histogram : Option ℚ
  deriving DecidableEq, Repr

/-- Zip a list of MACD-line values with optional signal/histogram values into
raw output records (stops at the shortest list, but the three lists always
have equal length in `MACDcalc`). -/
def mkRaw : List ℚ → List (Option ℚ) → List (Option ℚ) → List MACDOutput
  | m :: ms, s :: ss, h :: hs => ⟨some m, s, h⟩ :: mkRaw ms ss hs
  | _, _, _ => []

/-- Modelled from the spec: `technicalindicators.MACD.calculate`
(missing from the repository source).  §4.1: the raw output has one record
per MACD-line entry (so it starts where the slow EMA is defined, giving
`len(closes) - slow + 1` records); the `MACD` field is defined in every
record, while `signal` and `histogram` become defined only `signal - 1`
records later ("any leading entries where a field is not yet defined"). -/
def MACDcalc (data : List ℚ) (fast slow signal : ℕ) : List MACDOutput :=
  mkRaw (macdLine data fast slow)
    (List.replicate (signal - 1) none ++ (signalLine data fast slow signal).map some)
    (List.replicate (signal - 1) none ++ (histLine data fast slow signal).map some)

/-- Result record of the repository's `MACD` wrapper
(src/functions/technicalIndicator.ts): three plain arrays. -/
structure MACDResult where
  macd : List ℚ
  signal : List ℚ
  histogram : List ℚ
  deriving DecidableEq, Repr

/-- Translated from src/functions/technicalIndicator.ts, `SMA`:
delegates to the library. -/
def SMA (data : List ℚ) (period : ℕ) : List ℚ :=
  SMAcalc data period

/-- Translated from src/functions/technicalIndicator.ts, `EMA`:
delegates to the library. -/
def EMA (data : List ℚ) (period : ℕ) : List ℚ :=
  EMAcalc data period

/-- Translated from src/functions/technicalIndicator.ts, `MACD`:
calls the library and then filters *each field independently* for
`undefined` (`macd.map(o => o.MACD).filter(v => v !== undefined)`, and
likewise for `signal` and `histogram`). -/
def MACD (data : List ℚ) (fast slow signal : ℕ) : MACDResult :=
  let raw := MACDcalc data fast slow signal
  { macd := (raw.map (·.MACD)).filterMap id
    signal := (raw.map (·.signal)).filterMap id
    histogram := (raw.map (·.histogram)).filterMap id }

/-! ### Series alignment (the "Series Aligner", spec §4.2)

The repository has no dedicated aligner function; every indicator case of
`get-technical-indicators` (src/tools/tools.ts) uses the same inline idiom
`dates.slice(warmup).map((date, i) => ({date, value: series[i]}))`.
`alignPairs` embeds the `map` part: the i-th remaining date is paired with
`series[i]`, which is `undefined` (here `none`) once `i` runs past the end
of the series. -/

/-- One aligned output point: a date paired with the (possibly `undefined`)
indicator value.  In the source the value field is named after the
indicator (`sma`, `ema`, `rsi`). -/
structure AlignedPoint (α : Type) where
  date : α
  value : Option ℚ
  deriving DecidableEq, Repr

/-- `dates.map((date, i) => ({date, value: series[i]}))`: each successive
date consumes one series slot; indexing past the series end yields `none`. -/
def alignPairs {α : Type} : List α → List ℚ → List (AlignedPoint α)
  | [], _ => []
  | d :: ds, vs => ⟨d, vs.head?⟩ :: alignPairs ds vs.tail

/-- Translated from src/tools/tools.ts (lines 171-174, 186-189, 201-204):
`dates.slice(warmup).map((date, i) => ({date, value: series[i]}))`. -/
def alignSlice {α : Type} (dates : List α) (warmup : ℕ) (series : List ℚ) :
    List (AlignedPoint α) :=
  alignPairs (dates.drop warmup) series

/-- Translated from src/tools/tools.ts lines 167-174 (the `sma` case of
`get-technical-indicators`): `SMA(closingPrices, period)` aligned against
`dates.slice(period - 1)`. -/
def smaResults {α : Type} (dates : List α) (closes : List ℚ) (period : ℕ) :
    List (AlignedPoint α) :=
  alignSlice dates (period - 1) (SMA closes period)

/-- One aligned MACD output point (the `macd` case builds records with
three value fields). -/
structure MacdPoint (α : Type) where
  date : α
  macd : Option ℚ
  signal : Option ℚ
  histogram : Option ℚ
  deriving DecidableEq, Repr

/-- The `macd`-case analogue of `alignPairs`: each successive date consumes
one slot of each of the three arrays independently. -/
def macdPoints {α : Type} : List α → List ℚ → List ℚ → List ℚ → List (MacdPoint α)
  | [], _, _, _ => []
  | d :: ds, ms, ss, hs =>
    ⟨d, ms.head?, ss.head?, hs.head?⟩ :: macdPoints ds ms.tail ss.tail hs.tail

/-- Translated from src/tools/tools.ts lines 217-231 (the `macd` case of
`get-technical-indicators`): fixed parameters 12/26/9, dates sliced by
`slowPeriod + signalPeriod - 2 = 33`, each date paired with
`macdValues.macd[i]`, `macdValues.signal[i]`, `macdValues.histogram[i]`. -/
def macdResults {α : Type} (dates : List α) (closes : List ℚ) : List (MacdPoint α) :=
  macdPoints (dates.drop (26 + 9 - 2)) (MACD closes 12 26 9).macd
    (MACD closes 12 26 9).signal (MACD closes 12 26 9).histogram

/-- What the JavaScript alignment idiom produces for the value column:
the series truncated to the number of remaining dates, padded with
`undefined` when the series is too short. -/
def padSeries (n : ℕ) (vs : List ℚ) : List (Option ℚ) :=
  (vs.take n).map some ++ List.replicate (n - vs.length) none

/-- Translated from src/tools/tools.ts line 133: the input schema for
`period` in `get-technical-indicators` (`z.number().min(1).max(200)`). -/
def periodSchemaValid (p : ℤ) : Prop :=
  1 ≤ p ∧ p ≤ 200

/-- The arithmetic mean of the trailing window of size `period` starting
at offset `i` of `closes` (the window ends at input index
`i + period - 1`). -/
def trailingMean (closes : List ℚ) (period : ℕ) (i : ℕ) : ℚ :=
  ((closes.drop i).take period).sum / (period : ℚ)

/-! ### Trend analyzer (get-technical-analysis, src/tools/tools.ts) -/

/-- A qualitative trend observation (the analyzer pushes fixed strings; only
the identity of the observation matters here, so each string is a tag; the
neutral-RSI text interpolates the RSI value, which the tag carries). -/
inductive TrendObs where
  | positiveTrend
  | negativeTrend
  | goldenCross
  | deathCross
  | overbought
  | oversold
  | rsiNeutral (value : ℚ)
  | bullishMacd
  | bearishMacd
  | volumeHigh
  | volumeLow
  deriving DecidableEq, Repr

/-- Translated from src/tools/tools.ts lines 336-340 (rule 1, moving-average
cross): both branch conditions first test `sma20 !== undefined &&
sma50 !== undefined`, so when either is undefined the rule emits nothing. -/
def maRule (latestPrice : ℚ) (sma20 sma50 : Option ℚ) : List TrendObs :=
  match sma20, sma50 with
  | some s20, some s50 =>
    if latestPrice > s20 ∧ s20 > s50 then [.positiveTrend]
    else if latestPrice < s20 ∧ s20 < s50 then [.negativeTrend]
    else []
  | _, _ => []

/-- Evaluation of rule 1 on plain values — what the claim asserts the code
does after coalescing undefined inputs to 0. -/
def maRuleVals (latestPrice s20 s50 : ℚ) : List TrendObs :=
  if latestPrice > s20 ∧ s20 > s50 then [.positiveTrend]
  else if latestPrice < s20 ∧ s20 < s50 then [.negativeTrend]
  else []

/-- Translated from src/tools/tools.ts lines 342-346 (rule 2, golden/death
cross): `(sma50 ?? 0) > (sma200 ?? 0)` — undefined inputs are coalesced
to 0. -/
def crossRule (sma50 sma200 : Option ℚ) : List TrendObs :=
  if sma50.getD 0 > sma200.getD 0 then [.goldenCross]
  else if sma50.getD 0 < sma200.getD 0 then [.deathCross]
  else []

/-- Evaluation of rule 2 on plain values. -/
def crossRuleVals (s50 s200 : ℚ) : List TrendObs :=
  if s50 > s200 then [.goldenCross]
  else if s50 < s200 then [.deathCross]
  else []

/-- Translated from src/tools/tools.ts lines 349-355 (rule 3, RSI band):
`(rsi14 ?? 0)` — undefined input coalesced to 0. -/
def rsiRule (rsi14 : Option ℚ) : List TrendObs :=
  if rsi14.getD 0 > 70 then [.overbought]
  else if rsi14.getD 0 < 30 then [.oversold]
  else [.rsiNeutral (rsi14.getD 0)]

/-- Evaluation of rule 3 on plain values. -/
def rsiRuleVals (r : ℚ) : List TrendObs :=
  if r > 70 then [.overbought]
  else if r < 30 then [.oversold]
  else [.rsiNeutral r]

/-! ### Latest-value extraction for the analyzer (lines 313-325)

`Array.prototype.pop()` returns the last element (`undefined` on an empty
array) and removes it from the array; the code keeps using the mutated
arrays afterwards (line 358), so both the popped scalars and the arrays
without their last element are modelled. -/

/-- `macdResult.macd.pop()` (line 323): the popped latest MACD-line value. -/
def macdPop (closes : List ℚ) : Option ℚ :=
  (MACD closes 12 26 9).macd.getLast?

/-- `macdResult.signal?.pop()` (line 324): the popped latest signal value. -/
def macdSignalPop (closes : List ℚ) : Option ℚ :=
  (MACD closes 12 26 9).signal.getLast?

/-- The `macdResult.macd` array *after* the pop on line 323 — the operand
actually used by the MACD rule comparison on line 358. -/
def macdArrAfterPop (closes : List ℚ) : List ℚ :=
  (MACD closes 12 26 9).macd.dropLast

/-- The `macdResult.signal` array *after* the pop on line 324 — the operand
actually used by the MACD rule comparison on line 358. -/
def signalArrAfterPop (closes : List ℚ) : List ℚ :=
  (MACD closes 12 26 9).signal.dropLast

/-- Concrete failing input for the MACD rule: 25 flat closes followed by a
steep 9-bar decline (34 daily bars). -/
def c7closes : List ℚ :=
  [100, 100, 100, 100, 100, 100, 100, 100, 100, 100,
   100, 100, 100, 100, 100, 100, 100, 100, 100, 100,
   100, 100, 100, 100, 100, 90, 85, 80, 75, 70, 65, 60, 55, 50]

/-! ### Volume rule (lines 413-422) -/

/-- Translated from src/tools/tools.ts line 415:
`volumes.slice(-10).reduce((sum, vol) => sum + vol, 0) / 10` — the sum of
the last (up to) 10 volumes divided by the constant 10. -/
def avgVolume (volumes : List ℚ) : ℚ :=
  (volumes.drop (volumes.length - 10)).sum / 10

/-- The claim's "trailing-10-day average volume": the arithmetic mean of
the last (up to) 10 volumes. -/
def trailing10Avg (volumes : List ℚ) : ℚ :=
  (volumes.drop (volumes.length - 10)).sum /
    ((volumes.drop (volumes.length - 10)).length : ℚ)

/-- Translated from src/tools/tools.ts lines 416-422: the latest volume
(`volumes[volumes.length - 1]`, `undefined` on an empty array, in which case
both JavaScript comparisons are false and nothing is emitted) against
`avgVolume * 1.5` and `avgVolume * 0.5`. -/
def volumeObs (volumes : List ℚ) : List TrendObs :=
  match volumes.getLast? with
  | none => []
  | some latest =>
    if latest > avgVolume volumes * (3 / 2) then [.volumeHigh]
    else if latest < avgVolume volumes * (1 / 2) then [.volumeLow]
    else []

/-! ### Support/resistance detector (lines 377-411) -/

/-- Translated from src/tools/tools.ts line 377: the most recent 30 closing
prices (`closingPrices.slice(-30)`; the whole series when shorter). -/
def recentPrices (closes : List ℚ) : List ℚ :=
  closes.drop (closes.length - 30)

/-- Translated from src/tools/tools.ts lines 390/398: a candidate `c` is
near an already-recorded `level` when `Math.abs(level - c) / c < 0.01`
(within 1% relative difference, measured against the candidate). -/
def nearLevel (c level : ℚ) : Bool :=
  |level - c| / c < 1 / 100

/-- `prices[i]` is strictly greater than both neighbors (lines 387). -/
def isLocalMax (rp : List ℚ) (i : ℕ) : Prop :=
  rp.getD i 0 > rp.getD (i - 1) 0 ∧ rp.getD i 0 > rp.getD (i + 1) 0

/-- `prices[i]` is strictly less than both neighbors (lines 395). -/
def isLocalMin (rp : List ℚ) (i : ℕ) : Prop :=
  rp.getD i 0 < rp.getD (i - 1) 0 ∧ rp.getD i 0 < rp.getD (i + 1) 0

instance (rp : List ℚ) (i : ℕ) : Decidable (isLocalMax rp i) :=
  inferInstanceAs (Decidable (_ ∧ _))

instance (rp : List ℚ) (i : ℕ) : Decidable (isLocalMin rp i) :=
  inferInstanceAs (Decidable (_ ∧ _))

/-- One iteration of the scan loop (src/tools/tools.ts lines 386-402): at
index `i`, push `prices[i]` onto the resistance accumulator when it is a
strict local maximum and no recorded resistance level is within 1% of it,
and likewise independently for the support accumulator. -/
def detectStep (rp : List ℚ) (acc : List ℚ × List ℚ) (i : ℕ) : List ℚ × List ℚ :=
  (if rp.getD i 0 > rp.getD (i - 1) 0 ∧ rp.getD i 0 > rp.getD (i + 1) 0 then
     if acc.1.any (fun level => nearLevel (rp.getD i 0) level) then acc.1
     else acc.1 ++ [rp.getD i 0]
   else acc.1,
   if rp.getD i 0 < rp.getD (i - 1) 0 ∧ rp.getD i 0 < rp.getD (i + 1) 0 then
     if acc.2.any (fun level => nearLevel (rp.getD i 0) level) then acc.2
     else acc.2 ++ [rp.getD i 0]
   else acc.2)

/-- The scan loop `for (let i = 10; i < recentPrices.length - 1; i++)`
(lines 386-402) over both accumulators. -/
def detectLevels (closes : List ℚ) : List ℚ × List ℚ :=
  (List.range' 10 ((recentPrices closes).length - 11)).foldl
    (detectStep (recentPrices closes)) ([], [])

/-- The JavaScript numeric sort `.sort((a, b) => b - a)` (lines 405-406):
descending order. -/
def sortDesc (l : List ℚ) : List ℚ :=
  List.insertionSort (· ≥ ·) l

/-- Translated from src/tools/tools.ts lines 404-411: sort both level lists
descending, take the first `min(2, len)` resistance levels
(`slice(0, Math.min(2, len))`) and the *last* `min(2, len)` support levels
(`slice(-Math.min(2, len))`); an empty list stays empty. -/
def significantLevels (closes : List ℚ) : List ℚ × List ℚ :=
  (( sortDesc (detectLevels closes).1).take
      (min 2 (sortDesc (detectLevels closes).1).length),
   (sortDesc (detectLevels closes).2).drop
      ((sortDesc (detectLevels closes).2).length -
        min 2 (sortDesc (detectLevels closes).2).length))

/-- The claim's interior indices: `i` from 10 through `len - 2`. -/
def interiorIndices (rp : List ℚ) : List ℕ :=
  List.range' 10 (rp.length - 11)

/-- The claim's candidate extraction: the prices at interior indices that
satisfy the given local-extremum test, in scan order. -/
def candidatesOf (f : List ℚ → ℕ → Prop) [∀ rp i, Decidable (f rp i)]
    (rp : List ℚ) : List ℚ :=
  ((interiorIndices rp).filter (fun i => f rp i)).map (fun i => rp.getD i 0)

/-- The claim's deduplication step: discard a candidate when an existing
recorded level of the same kind is within 1% relative difference. -/
def dedupStep (acc : List ℚ) (c : ℚ) : List ℚ :=
  if acc.any (fun level => nearLevel c level) then acc else acc ++ [c]

/-- The claim's deduplication pass over a candidate list. -/
def dedup1pct (cands : List ℚ) : List ℚ :=
  cands.foldl dedupStep []

/-- The claim's resistance output: top 2 after sorting descending. -/
def specResistance (closes : List ℚ) : List ℚ :=
  (sortDesc (dedup1pct (candidatesOf isLocalMax (recentPrices closes)))).take 2

/-- The claim's support output: the bottom 2 (two smallest) values after
sorting descending. -/
def specSupport (closes : List ℚ) : List ℚ :=
  (sortDesc (dedup1pct (candidatesOf isLocalMin (recentPrices closes)))).drop
    ((sortDesc (dedup1pct (candidatesOf isLocalMin (recentPrices closes)))).length - 2)

/-! ### Provider boundary (get-technical-indicators lines 137-148, 278-281;
get-technical-analysis lines 294-305, 470-473) -/

/-- Outcome of the `HistoricalDataProvider` collaborator
(`yahooFinance.historical`): a bar list, or a thrown error. -/
inductive ProviderResult (β : Type) where
  | ok (bars : List β)
  | err
  deriving DecidableEq, Repr

/-- A tool response: the informational no-data message, the user-facing
failure message produced by the `catch` block, or a computed report. -/
inductive ToolResponse (γ : Type) where
  | noData
  | failed
  | report (payload : γ)
  deriving DecidableEq, Repr

/-- Translated from src/tools/tools.ts lines 137-148 and 278-281 (the same
shape appears at lines 294-305 and 470-473 of `get-technical-analysis`):
the whole handler body is wrapped in `try`/`catch` whose `catch` returns
the failure message, and `if (!historicalData.length)` returns the no-data
message before any computation; otherwise the indicator computation
`compute` runs on the bars. -/
def toolBoundary {β γ : Type} (compute : List β → γ) :
    ProviderResult β → ToolResponse γ
  | .err => .failed
  | .ok bars => if bars.isEmpty then .noData else .report (compute bars)

/-! ### Length and projection lemmas -/

theorem length_emaFrom (k prev : ℚ) (xs : List ℚ) :
    (emaFrom k prev xs).length = xs.length := by
  induction xs generalizing prev with
  | nil => rfl
  | cons x xs ih => simp [emaFrom, ih]

theorem length_EMAcalc (data : List ℚ) (period : ℕ) (h1 : 1 ≤ period)
    (h2 : period ≤ data.length) :
    (EMAcalc data period).length = data.length + 1 - period := by
  rw [EMAcalc, if_neg (by omega)]
  simp [length_emaFrom]
  omega

theorem length_SMAcalc (data : List ℚ) (period : ℕ) (h1 : 1 ≤ period) :
    (SMAcalc data period).length = data.length + 1 - period := by
  induction data with
  | nil => simp [SMAcalc]; omega
  | cons x xs ih =>
    by_cases h : period ≤ xs.length + 1
    · rw [SMAcalc, if_pos h]
      simp [ih]
      omega
    · rw [SMAcalc, if_neg h]
      simp
      omega

theorem length_macdLine (data : List ℚ) (fast slow : ℕ) (h1 : 1 ≤ fast)
    (h2 : fast ≤ slow) (h3 : slow ≤ data.length) :
    (macdLine data fast slow).length = data.length + 1 - slow := by
  rw [macdLine]
  rw [List.length_zipWith, List.length_drop,
    length_EMAcalc data fast h1 (le_trans h2 h3),
    length_EMAcalc data slow (le_trans h1 h2) h3]
  omega

theorem length_signalLine (data : List ℚ) (fast slow signal : ℕ) (h1 : 1 ≤ fast)
    (h2 : fast ≤ slow) (h3 : slow ≤ data.length) (h4 : 1 ≤ signal)
    (h5 : signal ≤ data.length + 1 - slow) :
    (signalLine data fast slow signal).length = data.length + 2 - slow - signal := by
  rw [signalLine, length_EMAcalc _ signal h4
    (by rw [length_macdLine data fast slow h1 h2 h3]; omega),
    length_macdLine data fast slow h1 h2 h3]
  omega

theorem length_histLine (data : List ℚ) (fast slow signal : ℕ) (h1 : 1 ≤ fast)
    (h2 : fast ≤ slow) (h3 : slow ≤ data.length) (h4 : 1 ≤ signal)
    (h5 : signal ≤ data.length + 1 - slow) :
    (histLine data fast slow signal).length = data.length + 2 - slow - signal := by
  rw [histLine, List.length_zipWith, List.length_drop,
    length_macdLine data fast slow h1 h2 h3,
    length_signalLine data fast slow signal h1 h2 h3 h4 h5]
  omega

theorem length_alignPairs {α : Type} (ds : List α) (vs : List ℚ) :
    (alignPairs ds vs).length = ds.length := by
  induction ds generalizing vs with
  | nil => rfl
  | cons d ds ih => simp [alignPairs, ih]

theorem map_date_alignPairs {α : Type} (ds : List α) (vs : List ℚ) :
    (alignPairs ds vs).map (·.date) = ds := by
  induction ds generalizing vs with
  | nil => rfl
  | cons d ds ih => simp [alignPairs, ih]

theorem map_value_alignPairs {α : Type} (ds : List α) (vs : List ℚ) :
    (alignPairs ds vs).map (·.value) = padSeries ds.length vs := by
  induction ds generalizing vs with
  | nil => simp [alignPairs, padSeries]
  | cons d ds ih =>
    cases vs with
    | nil => simp [alignPairs, padSeries, ih, List.replicate_succ]
    | cons v vs =>
      simp [alignPairs, padSeries, ih, Nat.succ_sub_succ]

theorem padSeries_of_le (n : ℕ) (vs : List ℚ) (h : n ≤ vs.length) :
    padSeries n vs = (vs.take n).map some := by
  simp [padSeries, Nat.sub_eq_zero_of_le h]

theorem padSeries_of_length_eq (n : ℕ) (vs : List ℚ) (h : n = vs.length) :
    padSeries n vs = vs.map some := by
  rw [padSeries_of_le n vs (le_of_eq h), h, List.take_length]

theorem filterMap_id_map_some (l : List ℚ) :
    ((l.map some).filterMap id) = l := by
  induction l with
  | nil => rfl
  | cons x xs ih => simp [List.filterMap_cons, ih]

theorem filterMap_id_replicate_none (n : ℕ) :
    ((List.replicate n (none : Option ℚ)).filterMap id) = [] := by
  induction n with
  | zero => rfl
  | succ n ih => simp [List.replicate_succ, List.filterMap_cons, ih]

theorem mkRaw_projections (ms : List ℚ) (ss hs : List (Option ℚ))
    (h1 : ss.length = ms.length) (h2 : hs.length = ms.length) :
    (mkRaw ms ss hs).map (·.MACD) = ms.map some ∧
    (mkRaw ms ss hs).map (·.signal) = ss ∧
    (mkRaw ms ss hs).map (·.histogram) = hs := by
  induction ms generalizing ss hs with
  | nil =>
    have hss : ss = [] := List.eq_nil_of_length_eq_zero h1
    have hhs : hs = [] := List.eq_nil_of_length_eq_zero h2
    subst hss; subst hhs
    simp [mkRaw]
  | cons m ms ih =>
    cases ss with
    | nil => simp at h1
    | cons s ss =>
      cases hs with
      | nil => simp at h2
      | cons h hs =>
        have h1' : ss.length = ms.length := by simpa using h1
        have h2' : hs.length = ms.length := by simpa using h2
        obtain ⟨e1, e2, e3⟩ := ih ss hs h1' h2'
        simp [mkRaw, e1, e2, e3]

theorem MACD_fields (data : List ℚ) (fast slow signal : ℕ) (h1 : 1 ≤ fast)
    (h2 : fast ≤ slow) (h3 : slow ≤ data.length) (h4 : 1 ≤ signal)
    (h5 : signal ≤ data.length + 1 - slow) :
    (MACD data fast slow signal).macd = macdLine data fast slow ∧
    (MACD data fast slow signal).signal = signalLine data fast slow signal ∧
    (MACD data fast slow signal).histogram = histLine data fast slow signal := by
  have hml := length_macdLine data fast slow h1 h2 h3
  have hsl := length_signalLine data fast slow signal h1 h2 h3 h4 h5
  have hhl := length_histLine data fast slow signal h1 h2 h3 h4 h5
  have hs_len :
      (List.replicate (signal - 1) (none : Option ℚ) ++
        (signalLine data fast slow signal).map some).length =
      (macdLine data fast slow).length := by
    simp [hml, hsl]; omega
  have hh_len :
      (List.replicate (signal - 1) (none : Option ℚ) ++
        (histLine data fast slow signal).map some).length =
      (macdLine data fast slow).length := by
    simp [hml, hhl]; omega
  obtain ⟨e1, e2, e3⟩ := mkRaw_projections (macdLine data fast slow) _ _ hs_len hh_len
  refine ⟨?_, ?_, ?_⟩
  · simp only [MACD, MACDcalc]
    rw [e1, filterMap_id_map_some]
  · simp only [MACD, MACDcalc]
    rw [e2, List.filterMap_append, filterMap_id_replicate_none,
      filterMap_id_map_some, List.nil_append]
  · simp only [MACD, MACDcalc]
    rw [e3, List.filterMap_append, filterMap_id_replicate_none,
      filterMap_id_map_some, List.nil_append]

theorem length_macdPoints {α : Type} (ds : List α) (ms ss hs : List ℚ) :
    (macdPoints ds ms ss hs).length = ds.length := by
  induction ds generalizing ms ss hs with
  | nil => rfl
  | cons d ds ih => simp [macdPoints, ih]

theorem map_date_macdPoints {α : Type} (ds : List α) (ms ss hs : List ℚ) :
    (macdPoints ds ms ss hs).map (·.date) = ds := by
  induction ds generalizing ms ss hs with
  | nil => rfl
  | cons d ds ih => simp [macdPoints, ih]

theorem map_macd_macdPoints {α : Type} (ds : List α) (ms ss hs : List ℚ) :
    (macdPoints ds ms ss hs).map (·.macd) = padSeries ds.length ms := by
  induction ds generalizing ms ss hs with
  | nil => simp [macdPoints, padSeries]
  | cons d ds ih =>
    cases ms with
    | nil => simp [macdPoints, padSeries, ih, List.replicate_succ]
    | cons m ms => simp [macdPoints, padSeries, ih, Nat.succ_sub_succ]

theorem map_signal_macdPoints {α : Type} (ds : List α) (ms ss hs : List ℚ) :
    (macdPoints ds ms ss hs).map (·.signal) = padSeries ds.length ss := by
  induction ds generalizing ms ss hs with
  | nil => simp [macdPoints, padSeries]
  | cons d ds ih =>
    cases ss with
    | nil => simp [macdPoints, padSeries, ih, List.replicate_succ]
    | cons s ss => simp [macdPoints, padSeries, ih, Nat.succ_sub_succ]

theorem map_histogram_macdPoints {α : Type} (ds : List α) (ms ss hs : List ℚ) :
    (macdPoints ds ms ss hs).map (·.histogram) = padSeries ds.length hs := by
  induction ds generalizing ms ss hs with
  | nil => simp [macdPoints, padSeries]
  | cons d ds ih =>
    cases hs with
    | nil => simp [macdPoints, padSeries, ih, List.replicate_succ]
    | cons h hs => simp [macdPoints, padSeries, ih, Nat.succ_sub_succ]

theorem SMAcalc_eq_windows (data : List ℚ) (period : ℕ) (h1 : 1 ≤ period) :
    SMAcalc data period =
      (List.range (data.length + 1 - period)).map (trailingMean data period) := by
  induction data with
  | nil =>
    have h0 : ([] : List ℚ).length + 1 - period = 0 := by simp; omega
    rw [h0]
    rfl
  | cons x xs ih =>
    by_cases h : period ≤ xs.length + 1
    · rw [SMAcalc, if_pos h]
      have hlen : (x :: xs).length + 1 - period = (xs.length + 1 - period) + 1 := by
        simp; omega
      rw [hlen, List.range_succ_eq_map, List.map_cons, List.map_map, ih]
      congr 1
    · rw [SMAcalc, if_neg h]
      have hlen : (x :: xs).length + 1 - period = 0 := by simp; omega
      rw [hlen]
      rfl

example : SMAcalc [1, 2, 3, 4] 2 = [3/2, 5/2, 7/2] := by
  norm_num [SMAcalc]

example : EMAcalc [1, 2, 3, 4] 2 = [3/2, 5/2, 7/2] := by
  norm_num [EMAcalc, emaFrom, emaStep]

example : macdLine [1, 2, 3, 4] 1 2 = [1/2, 1/2, 1/2] := by
  norm_num [macdLine, EMAcalc, emaFrom, emaStep]

example : signalLine [1, 2, 3, 4] 1 2 2 = [1/2, 1/2] := by
  norm_num [signalLine, macdLine, EMAcalc, emaFrom, emaStep]

example : (MACD [1, 2, 3, 4] 1 2 2).macd.length = 3 := by
  norm_num [MACD, MACDcalc, mkRaw, histLine, signalLine, macdLine, EMAcalc, emaFrom,
    emaStep, List.filterMap_cons]

example : (MACD [1, 2, 3, 4] 1 2 2).signal.length = 2 := by
  norm_num [MACD, MACDcalc, mkRaw, histLine, signalLine, macdLine, EMAcalc, emaFrom,
    emaStep, List.filterMap_cons]

/-! ### Support/resistance detector lemmas -/

theorem detectStep_eq (rp : List ℚ) (acc : List ℚ × List ℚ) (i : ℕ) :
    detectStep rp acc i =
      ((if isLocalMax rp i then dedupStep acc.1 (rp.getD i 0) else acc.1),
       (if isLocalMin rp i then dedupStep acc.2 (rp.getD i 0) else acc.2)) := by
  rfl

theorem foldl_detectStep (rp : List ℚ) (idxs : List ℕ) (a b : List ℚ) :
    idxs.foldl (detectStep rp) (a, b) =
      (((idxs.filter (fun i => isLocalMax rp i)).map (fun i => rp.getD i 0)).foldl
        dedupStep a,
       ((idxs.filter (fun i => isLocalMin rp i)).map (fun i => rp.getD i 0)).foldl
        dedupStep b) := by
  induction idxs generalizing a b with
  | nil => rfl
  | cons i idxs ih =>
    rw [List.foldl_cons, detectStep_eq]
    by_cases h1 : isLocalMax rp i <;> by_cases h2 : isLocalMin rp i <;>
      simp [List.filter_cons, h1, h2, ih]

theorem detectLevels_eq (closes : List ℚ) :
    detectLevels closes =
      (dedup1pct (candidatesOf isLocalMax (recentPrices closes)),
       dedup1pct (candidatesOf isLocalMin (recentPrices closes))) := by
  rw [detectLevels, foldl_detectStep]
  rfl

theorem take_min_two (l : List ℚ) : l.take (min 2 l.length) = l.take 2 := by
  rcases le_total l.length 2 with h | h
  · rw [min_eq_right h, List.take_length, List.take_of_length_le h]
  · rw [min_eq_left h]

theorem drop_min_two (l : List ℚ) :
    l.drop (l.length - min 2 l.length) = l.drop (l.length - 2) := by
  rcases le_total l.length 2 with h | h
  · rw [min_eq_right h, Nat.sub_self, Nat.sub_eq_zero_of_le h]
  · rw [min_eq_left h]

theorem sorted_sortDesc (l : List ℚ) : List.Sorted (· ≥ ·) (sortDesc l) := by
  haveI : IsTotal ℚ (· ≥ ·) := ⟨fun a b => le_total b a⟩
  haveI : IsTrans ℚ (· ≥ ·) := ⟨fun a b c hab hbc => le_trans hbc hab⟩
  exact List.sorted_insertionSort _ l

/-! ### Claims -/

/-- C1: the claim says that for inputs of length at least `slow + signal`,
the repository `MACD` returns three arrays of equal length after filtering,
co-aligned in time.  The code filters each field independently
(src/functions/technicalIndicator.ts), so the `macd` array keeps the
`signal - 1` leading entries whose `signal`/`histogram` fields were still
undefined: on `closes = [1,2,3,4]`, `fast=1`, `slow=2`, `signal=2` (length
`4 = slow + signal`), the filtered arrays have lengths 3, 2 and 2 — not
equal, refuting the claim.  The downstream `macd` case of
`get-technical-indicators` (src/tools/tools.ts lines 226-231) indexes all
three arrays at the same position for a single date, which only makes sense
for co-aligned arrays, so the spec states the intent and the independent
filtering is a code bug. -/
theorem C1_macd_filtering_failing_input :
    (MACD [1, 2, 3, 4] 1 2 2).macd.length = 3 ∧
    (MACD [1, 2, 3, 4] 1 2 2).signal.length = 2 ∧
    (MACD [1, 2, 3, 4] 1 2 2).histogram.length = 2 := by
  refine ⟨?_, ?_, ?_⟩ <;>
    norm_num [MACD, MACDcalc, mkRaw, histLine, signalLine, macdLine, EMAcalc,
      emaFrom, emaStep, List.filterMap_cons]

/-- C2 counterexample: the claim says alignment fails loudly
(`AlignmentMismatch`) whenever `len(dates) - warmup ≠ len(series)` and
"never silently pairs dates with missing values".  The aligner idiom has no
check at all: with two dates, warm-up 0 and a one-element series
(precondition violated: `2 - 0 ≠ 1`), it produces output and pairs the
second date with `undefined`. -/
theorem C2_alignment_no_failure_counterexample :
    (alignSlice [0, 1] 0 [(5 : ℚ)]) = [⟨0, some 5⟩, ⟨1, none⟩] ∧
    [0, 1].length - 0 ≠ [(5 : ℚ)].length := by
  constructor
  · simp [alignSlice, alignPairs]
  · decide

/-- C2 amended: the aligner performs no precondition check and has no
failure outcome; for every `dates`, `warmup` and `series` it silently
produces one point per remaining date — pairing dates beyond the series
length with `undefined` values, and silently ignoring series entries beyond
the number of remaining dates. -/
theorem C2_alignment_silent_coercion {α : Type} (dates : List α) (warmup : ℕ)
    (series : List ℚ) :
    (alignSlice dates warmup series).length = dates.length - warmup ∧
    (alignSlice dates warmup series).map (·.date) = dates.drop warmup ∧
    (alignSlice dates warmup series).map (·.value) =
      padSeries (dates.length - warmup) series := by
  refine ⟨?_, ?_, ?_⟩
  · rw [alignSlice, length_alignPairs, List.length_drop]
  · rw [alignSlice, map_date_alignPairs]
  · rw [alignSlice, map_value_alignPairs, List.length_drop]

/-- C3: for an `sma` request over `n` fetched bars with `1 ≤ period ≤ n`,
the aligned output has `n - period + 1` points; the i-th point's date is
`dates[period - 1 + i]` (so the first date is the period-th input date and
the points stay in original chronological order), and the i-th value is the
arithmetic mean of the trailing window `closes[i .. i + period - 1]`, which
ends exactly at the paired date's index `period - 1 + i`. -/
theorem C3_sma_case_aligned {α : Type} (dates : List α) (closes : List ℚ)
    (period : ℕ) (hlen : dates.length = closes.length) (h1 : 1 ≤ period)
    (h2 : period ≤ closes.length) :
    (smaResults dates closes period).length = closes.length + 1 - period ∧
    (smaResults dates closes period).map (·.date) = dates.drop (period - 1) ∧
    (smaResults dates closes period).head?.map (·.date) = dates[period - 1]? ∧
    (smaResults dates closes period).map (·.value) =
      ((List.range (closes.length + 1 - period)).map
        (trailingMean closes period)).map some := by
  have hsma : (SMA closes period).length = closes.length + 1 - period :=
    length_SMAcalc closes period h1
  have hd : (dates.drop (period - 1)).length = closes.length + 1 - period := by
    rw [List.length_drop, hlen]; omega
  refine ⟨?_, ?_, ?_, ?_⟩
  · rw [smaResults, alignSlice, length_alignPairs, hd]
  · rw [smaResults, alignSlice, map_date_alignPairs]
  · have hmap := map_date_alignPairs (dates.drop (period - 1)) (SMA closes period)
    have : ((alignPairs (dates.drop (period - 1)) (SMA closes period)).map
        (·.date)).head? = (dates.drop (period - 1)).head? := by rw [hmap]
    rw [List.head?_map] at this
    rw [smaResults, alignSlice, this, List.head?_drop]
  · rw [smaResults, alignSlice, map_value_alignPairs, hd,
      padSeries_of_length_eq _ _ (by rw [hsma]), SMA,
      SMAcalc_eq_windows closes period h1]

/-- C3 witness: the theorem applied to four dates `[10, 11, 12, 13]`,
closes `[1, 2, 3, 4]` and period 2. -/
theorem C3_sma_case_aligned_witness :
    (smaResults [10, 11, 12, 13] [(1 : ℚ), 2, 3, 4] 2).length = 3 ∧
    (smaResults [10, 11, 12, 13] [(1 : ℚ), 2, 3, 4] 2).map (·.date) = [11, 12, 13] ∧
    (smaResults [10, 11, 12, 13] [(1 : ℚ), 2, 3, 4] 2).head?.map (·.date) = some 11 ∧
    (smaResults [10, 11, 12, 13] [(1 : ℚ), 2, 3, 4] 2).map (·.value) =
      ((List.range 3).map (trailingMean [(1 : ℚ), 2, 3, 4] 2)).map some := by
  have h := C3_sma_case_aligned [10, 11, 12, 13] [(1 : ℚ), 2, 3, 4] 2
    (by decide) (by decide) (by decide)
  simpa using h

/-- C4 counterexample: the claim says `SMA` fails with `InvalidParameter`
when `period > len(closes)` and "does not return a normal (e.g. empty)
result in those cases"; but on a one-element series with period 2 it
returns the empty list as an ordinary value. -/
theorem C4_sma_invalid_period_counterexample :
    SMA [(1 : ℚ)] 2 = [] := by
  rw [SMA, SMAcalc, if_neg (by simp)]

/-- C4 amended: `SMA` never fails; for `period > len(closes)` it returns
the empty list (the "insufficient data → empty result" policy the spec's §7
itself states), and `period < 1` cannot reach `SMA` through the tool because
the input schema `z.number().min(1).max(200)` rejects it. -/
theorem C4_sma_totality_amended :
    (∀ (closes : List ℚ) (period : ℕ), closes.length < period →
      SMA closes period = []) ∧
    (∀ p : ℤ, p < 1 → ¬ periodSchemaValid p) := by
  constructor
  · intro closes period h
    cases closes with
    | nil => rfl
    | cons x xs =>
      rw [SMA, SMAcalc, if_neg (by simp at h ⊢; omega)]
  · intro p hp hvalid
    exact absurd hvalid.1 (by omega)

/-- C4 witness: the amended theorem applied at `closes = [5, 7]`,
`period = 3` and schema input `0`. -/
theorem C4_sma_totality_amended_witness :
    SMA [(5 : ℚ), 7] 3 = [] ∧ ¬ periodSchemaValid 0 :=
  ⟨C4_sma_totality_amended.1 [5, 7] 3 (by decide),
   C4_sma_totality_amended.2 0 (by decide)⟩

/-- C10: in the `macd` case of `get-technical-indicators` (parameters
12/26/9) over `n ≥ 34` bars, the aligned output has `n - 33` points; the
`signal` and `histogram` fields at position `i` are the signal/histogram
values for the paired date (input index `33 + i`), but the `macd` field at
position `i` is `macdLine[i]` — the MACD-line value of input index
`25 + i = (33 + i) - 8`, i.e. `signal - 1 = 8` time steps earlier than the
paired date — because the independently filtered `macd` array keeps 8 extra
leading entries (its length is `n - 25`, last conjunct). -/
theorem C10_macd_case_misalignment {α : Type} (dates : List α) (closes : List ℚ)
    (hlen : dates.length = closes.length) (h34 : 34 ≤ closes.length) :
    (macdResults dates closes).length = closes.length - 33 ∧
    (macdResults dates closes).map (·.date) = dates.drop 33 ∧
    (macdResults dates closes).map (·.signal) =
      (signalLine closes 12 26 9).map some ∧
    (macdResults dates closes).map (·.histogram) =
      (histLine closes 12 26 9).map some ∧
    (macdResults dates closes).map (·.macd) =
      ((macdLine closes 12 26).take (closes.length - 33)).map some ∧
    (macdLine closes 12 26).length = closes.length - 25 := by
  have h3 : 26 ≤ closes.length := by omega
  have h5 : 9 ≤ closes.length + 1 - 26 := by omega
  obtain ⟨hm, hs, hh⟩ := MACD_fields closes 12 26 9 (by norm_num) (by norm_num) h3
    (by norm_num) h5
  have hml : (macdLine closes 12 26).length = closes.length + 1 - 26 :=
    length_macdLine closes 12 26 (by norm_num) (by norm_num) h3
  have hsl : (signalLine closes 12 26 9).length = closes.length + 2 - 26 - 9 :=
    length_signalLine closes 12 26 9 (by norm_num) (by norm_num) h3 (by norm_num) h5
  have hhl : (histLine closes 12 26 9).length = closes.length + 2 - 26 - 9 :=
    length_histLine closes 12 26 9 (by norm_num) (by norm_num) h3 (by norm_num) h5
  have hdd : (dates.drop (26 + 9 - 2)).length = closes.length - 33 := by
    rw [List.length_drop, hlen]
  refine ⟨?_, ?_, ?_, ?_, ?_, ?_⟩
  · rw [macdResults, length_macdPoints, hdd]
  · rw [macdResults, map_date_macdPoints]
  · rw [macdResults, map_signal_macdPoints, hdd, hs,
      padSeries_of_length_eq _ _ (by rw [hsl]; omega)]
  · rw [macdResults, map_histogram_macdPoints, hdd, hh,
      padSeries_of_length_eq _ _ (by rw [hhl]; omega)]
  · rw [macdResults, map_macd_macdPoints, hdd, hm,
      padSeries_of_le _ _ (by rw [hml]; omega)]
  · rw [hml]; omega

/-- C10 witness: the theorem applied to 34 dates `0..33` and 34 constant
closes. -/
theorem C10_macd_case_misalignment_witness :
    (macdResults (List.range 34) (List.replicate 34 (1 : ℚ))).length = 1 ∧
    (macdResults (List.range 34) (List.replicate 34 (1 : ℚ))).map (·.date) =
      (List.range 34).drop 33 ∧
    (macdResults (List.range 34) (List.replicate 34 (1 : ℚ))).map (·.signal) =
      (signalLine (List.replicate 34 (1 : ℚ)) 12 26 9).map some ∧
    (macdResults (List.range 34) (List.replicate 34 (1 : ℚ))).map (·.histogram) =
      (histLine (List.replicate 34 (1 : ℚ)) 12 26 9).map some ∧
    (macdResults (List.range 34) (List.replicate 34 (1 : ℚ))).map (·.macd) =
      ((macdLine (List.replicate 34 (1 : ℚ)) 12 26).take 1).map some ∧
    (macdLine (List.replicate 34 (1 : ℚ)) 12 26).length = 9 := by
  have h := C10_macd_case_misalignment (List.range 34) (List.replicate 34 (1 : ℚ))
    (by simp) (by simp)
  simpa using h

/-- C5: on every price series, the detector scans the most recent 30
prices at interior indices 10 through `len - 2`, takes strict local maxima
as resistance candidates and strict local minima as support candidates,
discards a candidate when a recorded level of the same kind is within 1%
relative difference, and returns the top 2 resistance values and the bottom
2 support values of the descending sorts: the code equals this description
(stated by separately defined claim-side functions), both outputs are
sorted descending and have at most 2 elements. -/
theorem C5_support_resistance (closes : List ℚ) :
    significantLevels closes = (specResistance closes, specSupport closes) ∧
    List.Sorted (· ≥ ·) (significantLevels closes).1 ∧
    List.Sorted (· ≥ ·) (significantLevels closes).2 ∧
    (significantLevels closes).1.length ≤ 2 ∧
    (significantLevels closes).2.length ≤ 2 := by
  have hfst : (significantLevels closes).1 = specResistance closes := by
    rw [significantLevels, specResistance, detectLevels_eq]
    exact take_min_two _
  have hsnd : (significantLevels closes).2 = specSupport closes := by
    rw [significantLevels, specSupport, detectLevels_eq]
    exact drop_min_two _
  refine ⟨?_, ?_, ?_, ?_, ?_⟩
  · exact Prod.ext hfst hsnd
  · rw [hfst, specResistance]
    exact (sorted_sortDesc _).sublist (List.take_sublist _ _)
  · rw [hsnd, specSupport]
    exact (sorted_sortDesc _).sublist (List.drop_sublist _ _)
  · rw [hfst, specResistance, List.length_take]
    exact min_le_left _ _
  · rw [hsnd, specSupport, List.length_drop]
    omega

/-- C6 counterexample: the claim says every analyzer rule coalesces an
undefined indicator input to 0 and is still evaluated.  Rule 1 (price vs
SMA20/SMA50) instead tests `!== undefined` and emits nothing: with latest
price 3, `sma20 = 2` and `sma50` undefined the code emits no observation,
while the coalesced evaluation the claim describes (with `sma50 → 0`) would
emit the positive-trend observation. -/
theorem C6_coalescing_counterexample :
    maRule 3 (some 2) none = [] ∧
    maRuleVals 3 2 0 = [TrendObs.positiveTrend] := by
  constructor
  · rfl
  · norm_num [maRuleVals]

/-- C6 amended: rules 2 (golden/death cross) and 3 (RSI band) coalesce
undefined inputs to 0 via `?? 0` and always evaluate, but rule 1
(price vs SMA20/SMA50) is skipped entirely (emits nothing) whenever
`sma20` or `sma50` is undefined. -/
theorem C6_coalescing_amended :
    (∀ s50 s200 : Option ℚ,
      crossRule s50 s200 = crossRuleVals (s50.getD 0) (s200.getD 0)) ∧
    (∀ r : Option ℚ, rsiRule r = rsiRuleVals (r.getD 0)) ∧
    (∀ (p : ℚ) (b : Option ℚ), maRule p none b = []) ∧
    (∀ (p : ℚ) (a : Option ℚ), maRule p a none = []) := by
  refine ⟨fun _ _ => rfl, fun _ => rfl, fun _ _ => rfl, fun p a => ?_⟩
  cases a <;> rfl

set_option maxRecDepth 40000 in
/-- C7: the claim says the MACD rule compares the latest MACD-line scalar
with the latest signal scalar.  The code pops those scalars (mutating the
arrays) but then compares the leftover *arrays* with JavaScript `>`
(`macdResult.macd! > (macdResult.signal ?? 0)`, line 358), which coerces
both arrays to comma-joined strings.  On `c7closes` (25 flat bars, then a
steep 9-bar decline) the popped latest MACD value is *below* the popped
latest signal value, so the claim requires the bearish observation; but the
signal array after its pop is empty (stringifies to `""`) while the macd
array after its pop still has 8 entries (a nonempty string), and any
nonempty string exceeds `""`, so the code emits the bullish observation.
This theorem evaluates the model at the failing input: the popped scalars
exist and satisfy `macd < signal`, the popped signal array is empty, and
the popped macd array has 8 leftover entries. -/
theorem C7_macd_rule_failing_input :
    (macdPop c7closes).isSome = true ∧
    (macdSignalPop c7closes).isSome = true ∧
    (macdPop c7closes).getD 0 < (macdSignalPop c7closes).getD 0 ∧
    signalArrAfterPop c7closes = [] ∧
    (macdArrAfterPop c7closes).length = 8 := by
  refine ⟨?_, ?_, ?_, ?_, ?_⟩ <;>
    norm_num [macdPop, macdSignalPop, macdArrAfterPop, signalArrAfterPop, c7closes,
      MACD, MACDcalc, mkRaw, histLine, signalLine, macdLine, EMAcalc, emaFrom,
      emaStep, List.filterMap_cons]

/-- C8: with at least 10 bars of non-negative volume, the high-interest
observation is emitted iff the latest volume exceeds 1.5 times the
trailing-10-day average volume, the low-interest observation iff it is
below 0.5 times that average, and otherwise no volume observation is
emitted. -/
theorem C8_volume_rule (volumes : List ℚ) (latest : ℚ)
    (h10 : 10 ≤ volumes.length) (hpos : ∀ v ∈ volumes, 0 ≤ v)
    (hlast : volumes.getLast? = some latest) :
    (volumeObs volumes = [TrendObs.volumeHigh] ↔
      trailing10Avg volumes * (3 / 2) < latest) ∧
    (volumeObs volumes = [TrendObs.volumeLow] ↔
      latest < trailing10Avg volumes * (1 / 2)) ∧
    (volumeObs volumes = [] ↔
      ¬ trailing10Avg volumes * (3 / 2) < latest ∧
      ¬ latest < trailing10Avg volumes * (1 / 2)) := by
  have hdroplen : (volumes.drop (volumes.length - 10)).length = 10 := by
    rw [List.length_drop]; omega
  have havg : trailing10Avg volumes = avgVolume volumes := by
    rw [trailing10Avg, avgVolume, hdroplen]
    norm_num
  have havg0 : 0 ≤ avgVolume volumes := by
    apply div_nonneg
    · exact List.sum_nonneg (fun v hv => hpos v (List.mem_of_mem_drop hv))
    · norm_num
  have hObs : volumeObs volumes =
      if latest > avgVolume volumes * (3 / 2) then [TrendObs.volumeHigh]
      else if latest < avgVolume volumes * (1 / 2) then [TrendObs.volumeLow]
      else [] := by
    rw [volumeObs, hlast]
  rw [hObs, havg]
  by_cases h1 : latest > avgVolume volumes * (3 / 2)
  · have h2 : ¬ latest < avgVolume volumes * (1 / 2) := by nlinarith
    rw [if_pos h1]
    refine ⟨?_, ?_, ?_⟩ <;> simp [h1, h2] <;> linarith
  · rw [if_neg h1]
    by_cases h2 : latest < avgVolume volumes * (1 / 2)
    · rw [if_pos h2]
      refine ⟨?_, ?_, ?_⟩ <;> simp [h1, h2] <;> linarith
    · rw [if_neg h2]
      refine ⟨?_, ?_, ?_⟩ <;> simp [h1, h2] <;> linarith

/-- C8 witness: ten volumes `[1,...,1,20]` whose latest value 20 exceeds
1.5 times the trailing average `29/10`. -/
theorem C8_volume_rule_witness :
    (volumeObs [1, 1, 1, 1, 1, 1, 1, 1, 1, 20] = [TrendObs.volumeHigh] ↔
      trailing10Avg [1, 1, 1, 1, 1, 1, 1, 1, 1, 20] * (3 / 2) < 20) ∧
    (volumeObs [1, 1, 1, 1, 1, 1, 1, 1, 1, 20] = [TrendObs.volumeLow] ↔
      (20 : ℚ) < trailing10Avg [1, 1, 1, 1, 1, 1, 1, 1, 1, 20] * (1 / 2)) ∧
    (volumeObs [1, 1, 1, 1, 1, 1, 1, 1, 1, 20] = [] ↔
      ¬ trailing10Avg [1, 1, 1, 1, 1, 1, 1, 1, 1, 20] * (3 / 2) < 20 ∧
      ¬ (20 : ℚ) < trailing10Avg [1, 1, 1, 1, 1, 1, 1, 1, 1, 20] * (1 / 2)) :=
  C8_volume_rule [1, 1, 1, 1, 1, 1, 1, 1, 1, 20] 20 (by decide)
    (by norm_num) (by rfl)

/-- C9: the shared handler boundary of `get-technical-indicators` and
`get-technical-analysis`: a provider failure is caught and becomes the
user-facing failure message, an empty bar list becomes the informational
no-data message before any computation, and only a non-empty bar list
reaches the indicator computation.  The boundary is a total function into
messages — no outcome re-raises the provider error. -/
theorem C9_provider_boundary {β γ : Type} (compute : List β → γ) (b : β)
    (bars : List β) :
    toolBoundary compute ProviderResult.err = ToolResponse.failed ∧
    toolBoundary compute (ProviderResult.ok []) = ToolResponse.noData ∧
    toolBoundary compute (ProviderResult.ok (b :: bars)) =
      ToolResponse.report (compute (b :: bars)) := by
  refine ⟨rfl, rfl, ?_⟩
  simp [toolBoundary]

end StockNews
